import Mathlib

/-!
Verification development for the AppOscar finance tracker.

The source is a single TypeScript file containing a localStorage-backed
`Store` class (generic save/delete plus derived balance queries) and an
`App` class whose form submit handlers perform the cross-entity side
effects (inventory stock adjustment on sales and on creditor purchases,
and the one-way Expense to CreditorTransaction synchronization).

Shallow embedding conventions:
- the persisted store (one localStorage collection per entity type) is a
  `StoreState` record holding one ordered list per entity type;
- monetary amounts and quantities are embedded as exact integers (the
  source uses JS numbers; the properties at stake are sign and sum
  properties of exact arithmetic);
- JS string ids are `String`; an unset id (`undefined`, or the empty
  string coming from a hidden form field, both falsy in the `if (item.id)`
  check of `Store.save`) is embedded as `""`;
- `generateId` (Date.now plus Math.random, nondeterministic) is embedded
  as an explicit `genId : String` parameter supplied by the environment;
- the form submit handlers are embedded as functions of the collected
  form data; an early `alert(...); return` is an `Except.error` result,
  leaving the store untouched.
-/

namespace AppOscar

/-- Client record: id, name, phone. -/
structure Client where
  id : String
  name : String
  phone : String
deriving DecidableEq

/-- Transaction record: belongs to a client; amount is positive for a
sale or loan and negative for a payment. -/
structure Transaction where
  id : String
  clientId : String
  date : String
  amount : Int
  description : String
deriving DecidableEq

/-- General sale not tied to a client. -/
structure Sale where
  id : String
  date : String
  amount : Int
  description : String
deriving DecidableEq

/-- Expense record with an optional link to a creditor. -/
structure Expense where
  id : String
  date : String
  amount : Int
  category : String
  description : String
  creditorId : Option String
deriving DecidableEq

/-- Inventory product with unit price and current stock. -/
structure Product where
  id : String
  name : String
  description : String
  price : Int
  quantity : Int
deriving DecidableEq

/-- Creditor record: id, name, phone. -/
structure Creditor where
  id : String
  name : String
  phone : String
deriving DecidableEq

/-- CreditorTransaction record: belongs to a creditor; amount is positive
for a purchase and negative for a payment. -/
structure CreditorTransaction where
  id : String
  creditorId : String
  date : String
  amount : Int
  description : String
deriving DecidableEq

/-- The seven entity types of the store (the closed TypeScript union
`EntityType` of the source). -/
inductive EntityType where
  | clients
  | transactions
  | sales
  | expenses
  | products
  | creditors
  | creditorTransactions
deriving DecidableEq

/-- The persisted store: one ordered collection per entity type, exactly
the localStorage keys used by the `Store` class. -/
structure StoreState where
  clients : List Client
  transactions : List Transaction
  sales : List Sale
  expenses : List Expense
  products : List Product
  creditors : List Creditor
  creditorTransactions : List CreditorTransaction
deriving DecidableEq

/-- Empty store (every localStorage key absent reads back as []). -/
def StoreState.empty : StoreState :=
  ⟨[], [], [], [], [], [], []⟩

/-- JS `Array.findIndex`, embedded with `Option Nat` in place of the
-1-for-absent convention (the source only tests `index > -1`). -/
def findIndex {α : Type} (p : α → Bool) : List α → Option Nat
  | [] => none
  | x :: xs => if p x then some 0 else (findIndex p xs).map (· + 1)

/-- Embedding of `Store.save` on one collection. The source checks
`if (item.id)` (truthy id means update) and otherwise generates a fresh
id and pushes; an unset id is embedded as `""`. On update it writes
`items[index] = item` at the index found by `findIndex`, and when no
index is found it writes the collection back unchanged. In both branches
it returns the saved item. -/
def saveList {α : Type} (idOf : α → String) (withId : α → String → α)
    (genId : String) (item : α) (items : List α) : List α × α :=
  if idOf item = "" then
    let created := withId item genId
    (items ++ [created], created)
  else
    match findIndex (fun x => idOf x == idOf item) items with
    | some n => (items.set n item, item)
    | none => (items, item)

/-- Store.save on the clients collection. -/
def StoreState.saveClient (st : StoreState) (genId : String) (c : Client) :
    StoreState × Client :=
  let r := saveList Client.id (fun x i => { x with id := i }) genId c st.clients
  ({ st with clients := r.1 }, r.2)

/-- Store.save on the transactions collection. -/
def StoreState.saveTransaction (st : StoreState) (genId : String)
    (t : Transaction) : StoreState × Transaction :=
  let r := saveList Transaction.id (fun x i => { x with id := i }) genId t
    st.transactions
  ({ st with transactions := r.1 }, r.2)

/-- Store.save on the sales collection. -/
def StoreState.saveSale (st : StoreState) (genId : String) (s : Sale) :
    StoreState × Sale :=
  let r := saveList Sale.id (fun x i => { x with id := i }) genId s st.sales
  ({ st with sales := r.1 }, r.2)

/-- Store.save on the expenses collection. -/
def StoreState.saveExpense (st : StoreState) (genId : String) (e : Expense) :
    StoreState × Expense :=
  let r := saveList Expense.id (fun x i => { x with id := i }) genId e st.expenses
  ({ st with expenses := r.1 }, r.2)

/-- Store.save on the products collection. -/
def StoreState.saveProduct (st : StoreState) (genId : String) (p : Product) :
    StoreState × Product :=
  let r := saveList Product.id (fun x i => { x with id := i }) genId p st.products
  ({ st with products := r.1 }, r.2)

/-- Store.save on the creditors collection. -/
def StoreState.saveCreditor (st : StoreState) (genId : String) (c : Creditor) :
    StoreState × Creditor :=
  let r := saveList Creditor.id (fun x i => { x with id := i }) genId c st.creditors
  ({ st with creditors := r.1 }, r.2)

/-- Store.save on the creditorTransactions collection. -/
def StoreState.saveCreditorTransaction (st : StoreState) (genId : String)
    (t : CreditorTransaction) : StoreState × CreditorTransaction :=
  let r := saveList CreditorTransaction.id (fun x i => { x with id := i }) genId t
    st.creditorTransactions
  ({ st with creditorTransactions := r.1 }, r.2)

/-- Embedding of `Store.delete`: filter the record out of its own
collection, then cascade to child transactions when the type is clients
or creditors, exactly as the two trailing `if` blocks of the source. -/
def StoreState.delete (st : StoreState) (type : EntityType) (id : String) :
    StoreState :=
  let st1 : StoreState :=
    match type with
    | .clients =>
        { st with clients := st.clients.filter (fun item => item.id != id) }
    | .transactions =>
        { st with transactions :=
            st.transactions.filter (fun item => item.id != id) }
    | .sales =>
        { st with sales := st.sales.filter (fun item => item.id != id) }
    | .expenses =>
        { st with expenses := st.expenses.filter (fun item => item.id != id) }
    | .products =>
        { st with products := st.products.filter (fun item => item.id != id) }
    | .creditors =>
        { st with creditors := st.creditors.filter (fun item => item.id != id) }
    | .creditorTransactions =>
        { st with creditorTransactions :=
            st.creditorTransactions.filter (fun item => item.id != id) }
  let st2 : StoreState :=
    if type = EntityType.clients then
      { st1 with transactions :=
          st1.transactions.filter (fun t => t.clientId != id) }
    else st1
  if type = EntityType.creditors then
    { st2 with creditorTransactions :=
        st2.creditorTransactions.filter (fun t => t.creditorId != id) }
  else st2

/-- `store.getClients()`. -/
def StoreState.getClients (st : StoreState) : List Client :=
  st.clients

/-- `store.getCreditors()`. -/
def StoreState.getCreditors (st : StoreState) : List Creditor :=
  st.creditors

/-- `store.getProduct(id)`: first product with the given id. -/
def StoreState.getProduct (st : StoreState) (id : String) : Option Product :=
  st.products.find? (fun p => p.id == id)

/-- `store.getTransactionsForClient(clientId)`. -/
def StoreState.getTransactionsForClient (st : StoreState) (clientId : String) :
    List Transaction :=
  st.transactions.filter (fun t => t.clientId == clientId)

/-- `store.getTransactionsForCreditor(creditorId)`. -/
def StoreState.getTransactionsForCreditor (st : StoreState)
    (creditorId : String) : List CreditorTransaction :=
  st.creditorTransactions.filter (fun t => t.creditorId == creditorId)

/-- `store.getClientBalance(clientId)`: reduce of the matching
transaction amounts starting from 0. -/
def StoreState.getClientBalance (st : StoreState) (clientId : String) : Int :=
  (st.getTransactionsForClient clientId).foldl (fun sum t => sum + t.amount) 0

/-- `store.getCreditorBalance(creditorId)`. -/
def StoreState.getCreditorBalance (st : StoreState) (creditorId : String) :
    Int :=
  (st.getTransactionsForCreditor creditorId).foldl
    (fun sum t => sum + t.amount) 0

/-- `store.getTotalClientDebt()`: reduce over the clients, adding a
balance only when it is strictly positive. -/
def StoreState.getTotalClientDebt (st : StoreState) : Int :=
  st.clients.foldl (fun totalDebt client =>
    let balance := st.getClientBalance client.id
    if balance > 0 then totalDebt + balance else totalDebt) 0

/-- A creation upsert sequence for transactions: each element supplies the
generated id and the submitted transaction fields; the id field is cleared
as for any record entered through a creation form (hidden id field empty). -/
def StoreState.applyTransactionCreates (st : StoreState)
    (l : List (String × Transaction)) : StoreState :=
  l.foldl (fun s p => (s.saveTransaction p.1 { p.2 with id := "" }).1) st

/-! ## Frame lemmas -/

/-- Folding addition of a projection over a list is the initial value plus
the sum of the mapped list. -/
theorem foldl_add_apply {α : Type} (f : α → Int) (l : List α) (init : Int) :
    l.foldl (fun s x => s + f x) init = init + (l.map f).sum := by
  induction l generalizing init with
  | nil => simp
  | cons x xs ih => simp [ih, add_assoc]

/-- Folding the positive-part accumulator over a list is the initial value
plus the sum of the clamped projections. -/
theorem foldl_posPart {α : Type} (g : α → Int) (l : List α) (init : Int) :
    l.foldl (fun tot x => if g x > 0 then tot + g x else tot) init
      = init + (l.map (fun x => max (g x) 0)).sum := by
  induction l generalizing init with
  | nil => simp
  | cons x xs ih =>
    by_cases h : g x > 0
    · simp [h, ih, max_eq_left h.le, add_assoc]
    · simp [h, ih, max_eq_right (le_of_not_lt h)]

/-- The client balance is the sum of the amounts of the matching
transactions. -/
theorem getClientBalance_eq_sum (st : StoreState) (c : String) :
    st.getClientBalance c
      = ((st.transactions.filter (fun t => t.clientId == c)).map
          Transaction.amount).sum := by
  simpa [StoreState.getClientBalance, StoreState.getTransactionsForClient]
    using foldl_add_apply Transaction.amount
      (st.transactions.filter (fun t => t.clientId == c)) 0

/-- The aggregate client debt is the sum of the positive parts of the
client balances. -/
theorem getTotalClientDebt_eq_sum (st : StoreState) :
    st.getTotalClientDebt
      = (st.clients.map (fun c => max (st.getClientBalance c.id) 0)).sum := by
  simpa [StoreState.getTotalClientDebt]
    using foldl_posPart (fun c : Client => st.getClientBalance c.id)
      st.clients 0

/-- Saving a transaction with an unset id appends it with the generated id
and changes nothing else. -/
theorem saveTransaction_create (st : StoreState) (g : String)
    (t : Transaction) (ht : t.id = "") :
    (st.saveTransaction g t).1
      = { st with transactions := st.transactions ++ [{ t with id := g }] } := by
  simp [StoreState.saveTransaction, saveList, ht]

/-- Effect of one creation save on a client balance. -/
theorem getClientBalance_saveTransaction (st : StoreState) (g : String)
    (t : Transaction) (ht : t.id = "") (c : String) :
    ((st.saveTransaction g t).1).getClientBalance c
      = st.getClientBalance c + (if t.clientId == c then t.amount else 0) := by
  rw [saveTransaction_create st g t ht, getClientBalance_eq_sum,
    getClientBalance_eq_sum]
  by_cases h : t.clientId = c
  · simp [List.filter_append, h]
  · simp [List.filter_append, h]

/-- Balance after a whole sequence of creation saves. -/
theorem getClientBalance_applyCreates (st : StoreState) (c : String)
    (l : List (String × Transaction)) :
    (st.applyTransactionCreates l).getClientBalance c
      = st.getClientBalance c
        + (l.map (fun p => if p.2.clientId == c then p.2.amount else 0)).sum := by
  induction l generalizing st with
  | nil => simp [StoreState.applyTransactionCreates]
  | cons x xs ih =>
    have hstep : st.applyTransactionCreates (x :: xs)
        = ((st.saveTransaction x.1 { x.2 with id := "" }).1).applyTransactionCreates
            xs := rfl
    rw [hstep, ih, getClientBalance_saveTransaction _ _ _ rfl]
    simp [add_assoc]

/-- An index returned by findIndex is within bounds. -/
theorem findIndex_lt_length {α : Type} (p : α → Bool) (l : List α) (n : Nat)
    (h : findIndex p l = some n) : n < l.length := by
  induction l generalizing n with
  | nil => simp [findIndex] at h
  | cons x xs ih =>
    by_cases hx : p x
    · simp [findIndex, hx] at h
      subst h
      simp only [List.length_cons]
      omega
    · simp [findIndex, hx] at h
      obtain ⟨m, hm, rfl⟩ := h
      simpa using Nat.succ_lt_succ (ih m hm)

/-- Reading back the overwritten slot. -/
theorem getElem?_set_self {α : Type} (l : List α) (n : Nat) (x : α)
    (h : n < l.length) : (l.set n x)[n]? = some x := by
  induction l generalizing n with
  | nil => simp at h
  | cons a as ih =>
    cases n with
    | zero => simp
    | succ m =>
      simp only [List.set_cons_succ, List.getElem?_cons_succ]
      exact ih m (by simpa using h)

/-- Reading any other slot is unchanged by set. -/
theorem getElem?_set_ne {α : Type} (l : List α) (n m : Nat) (x : α)
    (h : m ≠ n) : (l.set n x)[m]? = l[m]? := by
  induction l generalizing n m with
  | nil => simp
  | cons a as ih =>
    cases n with
    | zero =>
      cases m with
      | zero => exact absurd rfl h
      | succ k => simp
    | succ n' =>
      cases m with
      | zero => simp
      | succ k =>
        simp only [List.set_cons_succ, List.getElem?_cons_succ]
        exact ih n' k (fun hh => h (by omega))

/-- After overwriting the first matching slot with a still-matching
record, find? returns the new record. -/
theorem find?_set_of_findIndex {α : Type} (q : α → Bool) (l : List α)
    (n : Nat) (y : α) (hfind : findIndex q l = some n) (hy : q y = true) :
    (l.set n y).find? q = some y := by
  induction l generalizing n with
  | nil => simp [findIndex] at hfind
  | cons a as ih =>
    by_cases hq : q a
    · simp [findIndex, hq] at hfind
      subst hfind
      simpa [List.set_cons_zero] using List.find?_cons_of_pos as hy
    · simp [findIndex, hq] at hfind
      obtain ⟨m, hm, rfl⟩ := hfind
      simp only [List.set_cons_succ]
      rw [List.find?_cons_of_neg _ hq]
      exact ih m hm

/-- A successful find? yields a successful findIndex. -/
theorem find?_eq_some_findIndex {α : Type} (q : α → Bool) (l : List α)
    (x : α) (h : l.find? q = some x) : ∃ n, findIndex q l = some n := by
  induction l with
  | nil => simp at h
  | cons a as ih =>
    by_cases hq : q a
    · exact ⟨0, by simp [findIndex, hq]⟩
    · rw [List.find?_cons_of_neg _ hq] at h
      obtain ⟨n, hn⟩ := ih h
      exact ⟨n + 1, by simp [findIndex, hq, hn]⟩

/-! ## Entity type name checking (section 6 of the spec) -/

/-- The seven collection names of the TypeScript union `EntityType`. -/
def entityTypeNames : List String :=
  ["clients", "transactions", "sales", "expenses", "products", "creditors",
    "creditorTransactions"]

/-- Parse a textual entity type against the closed TypeScript union
`EntityType`. A call such as `delete` carrying any other type name is
ill-typed in the source and rejected before execution; that static
rejection is embedded as this parse step in front of the dispatch. -/
def parseEntityType (s : String) : Option EntityType :=
  if s = "clients" then some .clients
  else if s = "transactions" then some .transactions
  else if s = "sales" then some .sales
  else if s = "expenses" then some .expenses
  else if s = "products" then some .products
  else if s = "creditors" then some .creditors
  else if s = "creditorTransactions" then some .creditorTransactions
  else none

/-- Checked delete entry point: dispatch only on a recognized entity type
name, reject every other name with an error. -/
def StoreState.deleteByName (st : StoreState) (typeName : String)
    (id : String) : Except String StoreState :=
  match parseEntityType typeName with
  | some ty => Except.ok (st.delete ty id)
  | none => Except.error ("Unknown entity type: " ++ typeName)

/-! ## Claim theorems, first batch -/

/-- Claim C1: for every client id and every store state, getClientBalance
is the arithmetic sum of the amounts of the transactions with that
clientId; consequently it has that value at every point of any sequence of
transaction creation upserts, and the value after a sequence does not
depend on the order of the sequence. -/
theorem clientBalance_is_sum (st : StoreState) (c : String) :
    st.getClientBalance c
      = ((st.transactions.filter (fun t => t.clientId == c)).map
          Transaction.amount).sum
    ∧ (∀ l : List (String × Transaction),
        (st.applyTransactionCreates l).getClientBalance c
          = st.getClientBalance c
            + (l.map (fun p => if p.2.clientId == c then p.2.amount else 0)).sum)
    ∧ (∀ l₁ l₂ : List (String × Transaction), l₁.Perm l₂ →
        (st.applyTransactionCreates l₁).getClientBalance c
          = (st.applyTransactionCreates l₂).getClientBalance c) := by
  refine ⟨getClientBalance_eq_sum st c,
    fun l => getClientBalance_applyCreates st c l,
    fun l₁ l₂ h => ?_⟩
  rw [getClientBalance_applyCreates, getClientBalance_applyCreates]
  exact congrArg (st.getClientBalance c + ·) ((h.map _).sum_eq)

/-- Example store used by witnesses: one client, one creditor, one
product, no transactions yet. -/
def wClient : Client := ⟨"a", "Ana", "300"⟩

/-- Example transaction for the witnesses, a loan of 50000 to Ana. -/
def wT1 : Transaction := ⟨"", "a", "2026-01-01", 50000, "prestamo"⟩

/-- Example transaction for the witnesses, a payment of 20000 from Ana. -/
def wT2 : Transaction := ⟨"", "a", "2026-01-02", -20000, "pago"⟩

/-- Example store for the witnesses. -/
def wSt : StoreState := { StoreState.empty with clients := [wClient] }

theorem clientBalance_is_sum_witness :
    (wSt.applyTransactionCreates [("g1", wT1), ("g2", wT2)]).getClientBalance "a"
      = (wSt.applyTransactionCreates [("g2", wT2), ("g1", wT1)]).getClientBalance
          "a" :=
  (clientBalance_is_sum wSt "a").2.2 _ _ (by decide)

/-- Claim C2: deleting a client removes it from getClients and empties
getTransactionsForClient for its id; symmetrically, deleting a creditor
removes it from getCreditors and empties getTransactionsForCreditor. -/
theorem delete_cascades (st : StoreState) (id : String) :
    ((st.delete .clients id).getClients.all (fun c => c.id != id) = true
      ∧ (st.delete .clients id).getTransactionsForClient id = [])
    ∧ ((st.delete .creditors id).getCreditors.all (fun c => c.id != id) = true
      ∧ (st.delete .creditors id).getTransactionsForCreditor id = []) := by
  have hc1 : (st.delete .clients id).getClients
      = st.clients.filter (fun item => item.id != id) := rfl
  have hc2 : (st.delete .clients id).transactions
      = st.transactions.filter (fun t => t.clientId != id) := rfl
  have hk1 : (st.delete .creditors id).getCreditors
      = st.creditors.filter (fun item => item.id != id) := rfl
  have hk2 : (st.delete .creditors id).creditorTransactions
      = st.creditorTransactions.filter (fun t => t.creditorId != id) := rfl
  refine ⟨⟨?_, ?_⟩, ?_, ?_⟩
  · rw [hc1]
    exact List.all_eq_true.mpr fun x hx => (List.mem_filter.mp hx).2
  · rw [StoreState.getTransactionsForClient, hc2]
    refine List.filter_eq_nil_iff.mpr fun a ha => ?_
    have h2 := (List.mem_filter.mp ha).2
    simp only [bne_iff_ne, ne_eq] at h2
    simp [h2]
  · rw [hk1]
    exact List.all_eq_true.mpr fun x hx => (List.mem_filter.mp hx).2
  · rw [StoreState.getTransactionsForCreditor, hk2]
    refine List.filter_eq_nil_iff.mpr fun a ha => ?_
    have h2 := (List.mem_filter.mp ha).2
    simp only [bne_iff_ne, ne_eq] at h2
    simp [h2]

/-- Claim C5: the aggregate client debt equals the sum over all clients of
the positive part of their balance; credits contribute zero. -/
theorem totalClientDebt_is_sum_of_max (st : StoreState) :
    st.getTotalClientDebt
      = (st.clients.map (fun c => max (st.getClientBalance c.id) 0)).sum :=
  getTotalClientDebt_eq_sum st

/-- Claim C6: save is an upsert: an unset id leads to a fresh id being
assigned and the record appended at the end, the returned record carrying
the generated id; a set id that is present leads to an in-place
replacement at the position of the existing record, all other positions
and the length being preserved, the input record being returned. Id
generation itself (Date.now plus Math.random) is nondeterministic and
embedded as the explicit genId argument. -/
theorem save_upsert_spec {α : Type} (idOf : α → String)
    (withId : α → String → α) (hW : ∀ x i, idOf (withId x i) = i)
    (genId : String) (item : α) (items : List α) :
    (idOf item = "" →
      saveList idOf withId genId item items
          = (items ++ [withId item genId], withId item genId)
        ∧ idOf (saveList idOf withId genId item items).2 = genId)
    ∧ (∀ n, idOf item ≠ "" →
        findIndex (fun x => idOf x == idOf item) items = some n →
        (saveList idOf withId genId item items).1.length = items.length
          ∧ ((saveList idOf withId genId item items).1)[n]? = some item
          ∧ (∀ m, m ≠ n →
              ((saveList idOf withId genId item items).1)[m]? = items[m]?)
          ∧ (saveList idOf withId genId item items).2 = item) := by
  constructor
  · intro h
    simp [saveList, h, hW]
  · intro n hne hfind
    have hsave : saveList idOf withId genId item items
        = (items.set n item, item) := by
      simp [saveList, hne, hfind]
    rw [hsave]
    exact ⟨List.length_set items n item,
      getElem?_set_self items n item (findIndex_lt_length _ items n hfind),
      fun m hm => getElem?_set_ne items n m item hm, rfl⟩

theorem save_upsert_spec_witness :
    (saveList Client.id (fun x i => { x with id := i }) "g1"
        (⟨"", "Ana", "300"⟩ : Client) []
      = ([⟨"g1", "Ana", "300"⟩], ⟨"g1", "Ana", "300"⟩))
    ∧ ((saveList Client.id (fun x i => { x with id := i }) "g2"
        (⟨"a", "Bea", "301"⟩ : Client)
        [⟨"a", "Old", "1"⟩, ⟨"b", "Two", "2"⟩]).1)[0]?
      = some ⟨"a", "Bea", "301"⟩ :=
  ⟨((save_upsert_spec Client.id (fun x i => { x with id := i })
      (fun _ _ => rfl) "g1" ⟨"", "Ana", "300"⟩ []).1 rfl).1,
   ((save_upsert_spec Client.id (fun x i => { x with id := i })
      (fun _ _ => rfl) "g2" ⟨"a", "Bea", "301"⟩
      [⟨"a", "Old", "1"⟩, ⟨"b", "Two", "2"⟩]).2 0 (by decide) (by decide)).2.1⟩

/-- Claim C10: saving a record whose id is set but matches nothing in the
collection is a silent no-op on the collection while still returning the
input record as if it had been persisted. -/
theorem save_missing_id_noop {α : Type} (idOf : α → String)
    (withId : α → String → α) (genId : String) (item : α) (items : List α)
    (hne : idOf item ≠ "")
    (hmiss : findIndex (fun x => idOf x == idOf item) items = none) :
    saveList idOf withId genId item items = (items, item) := by
  simp [saveList, hne, hmiss]

theorem save_missing_id_noop_witness :
    saveList Client.id (fun x i => { x with id := i }) "g9"
        (⟨"zz", "Cleo", "302"⟩ : Client) [⟨"a", "Ana", "300"⟩]
      = ([⟨"a", "Ana", "300"⟩], ⟨"zz", "Cleo", "302"⟩) :=
  save_missing_id_noop Client.id (fun x i => { x with id := i }) "g9"
    ⟨"zz", "Cleo", "302"⟩ [⟨"a", "Ana", "300"⟩] (by decide) (by decide)

/-- Claim C9: a delete call carrying an entity type name outside the seven
known collection names is rejected with an error, never dispatched. -/
theorem deleteByName_rejects_unknown (st : StoreState) (s : String)
    (id : String) (h : s ∉ entityTypeNames) :
    st.deleteByName s id = Except.error ("Unknown entity type: " ++ s) := by
  have hp : parseEntityType s = none := by
    simp only [entityTypeNames, List.mem_cons, List.not_mem_nil, or_false,
      not_or] at h
    obtain ⟨h1, h2, h3, h4, h5, h6, h7⟩ := h
    simp [parseEntityType, h1, h2, h3, h4, h5, h6, h7]
  simp [StoreState.deleteByName, hp]

theorem deleteByName_rejects_unknown_witness :
    StoreState.empty.deleteByName "foo" "x"
      = Except.error ("Unknown entity type: " ++ "foo") :=
  deleteByName_rejects_unknown StoreState.empty "foo" "x" (by decide)

/-! ## Claim C7: aggregate debt under a new transaction -/

/-- Claim C7 counterexample: the claim states that adding a transaction
for a client whose balance is at most 0 leaves getTotalClientDebt
unchanged. Ana has balance 0 (which is at most 0); adding the 50000 loan
raises the total debt from 0 to 50000. -/
theorem totalDebt_unaffected_counterexample :
    wSt.getClientBalance "a" ≤ 0
    ∧ ((wSt.saveTransaction "g1" wT1).1).getTotalClientDebt
        ≠ wSt.getTotalClientDebt := by
  decide

/-- Claim C7 (amended): creating a transaction with positive amount never
decreases getTotalClientDebt; and creating a transaction for a client
whose balance is at most 0 and stays at most 0 after the addition leaves
getTotalClientDebt unchanged. -/
theorem totalDebt_monotone_amended (st : StoreState) (g : String)
    (t : Transaction) (ht : t.id = "") :
    (0 < t.amount →
      st.getTotalClientDebt
        ≤ ((st.saveTransaction g t).1).getTotalClientDebt)
    ∧ (st.getClientBalance t.clientId ≤ 0 →
       st.getClientBalance t.clientId + t.amount ≤ 0 →
       ((st.saveTransaction g t).1).getTotalClientDebt
         = st.getTotalClientDebt) := by
  have hcl : ((st.saveTransaction g t).1).clients = st.clients := by
    rw [saveTransaction_create st g t ht]
  have hbal := getClientBalance_saveTransaction st g t ht
  constructor
  · intro ha
    rw [getTotalClientDebt_eq_sum, getTotalClientDebt_eq_sum, hcl]
    simp only [hbal]
    refine List.sum_le_sum fun c _ => ?_
    by_cases h : t.clientId = c.id
    · simp only [h, beq_self_eq_true, if_true]
      exact max_le_max (le_add_of_nonneg_right ha.le) le_rfl
    · simp [h]
  · intro h1 h2
    rw [getTotalClientDebt_eq_sum, getTotalClientDebt_eq_sum, hcl]
    simp only [hbal]
    refine congrArg List.sum (List.map_congr_left fun c _ => ?_)
    by_cases h : t.clientId = c.id
    · rw [h] at h1 h2
      simp only [h, beq_self_eq_true, if_true]
      rw [max_eq_right h2, max_eq_right h1]
    · simp [h]

/-- Second example store for the C7 witness: Bo starts with a credit of
30000 and then gets charged 10000, staying in credit. -/
def wSt2 : StoreState :=
  { StoreState.empty with
      clients := [⟨"b", "Bo", "301"⟩],
      transactions := [⟨"t0", "b", "2026-01-01", -30000, "abono"⟩] }

/-- Charge of 10000 to Bo, used by the C7 witness. -/
def wT3 : Transaction := ⟨"", "b", "2026-01-02", 10000, "compra"⟩

theorem totalDebt_monotone_amended_witness :
    (wSt.getTotalClientDebt
        ≤ ((wSt.saveTransaction "g1" wT1).1).getTotalClientDebt)
    ∧ ((wSt2.saveTransaction "g1" wT3).1).getTotalClientDebt
        = wSt2.getTotalClientDebt :=
  ⟨(totalDebt_monotone_amended wSt "g1" wT1 rfl).1 (by decide),
   (totalDebt_monotone_amended wSt2 "g1" wT3 rfl).2 (by decide) (by decide)⟩

/-! ## Form submit handlers (the Invariant Layer of the spec) -/

/-- Data collected by the sale form at submit time. `isEditing` records
whether the form was opened on an existing sale; `idStr` is the hidden id
field (empty for a new sale); `clientId` and `productId` are the optional
selections (an empty select value is falsy in JS and embedded as none);
`quantity` is the parsed quantity field and `amount` the amount field. -/
structure SaleForm where
  isEditing : Bool
  idStr : String
  clientId : Option String
  productId : Option String
  quantity : Int
  amount : Int
  description : String
  date : String

/-- First half of the sale submit handler: when creating from inventory,
look the product up, and either decrement its stock through a product
save or fail with the insufficient-stock alert and return early. -/
def saleStockCheck (st : StoreState) (genId : String) (f : SaleForm) :
    Except String StoreState :=
  match f.isEditing, f.productId with
  | false, some pid =>
    match st.getProduct pid with
    | some product =>
      if product.quantity ≥ f.quantity then
        Except.ok (st.saveProduct genId
          { product with quantity := product.quantity - f.quantity }).1
      else Except.error "No hay suficiente stock para esta venta."
    | none => Except.error "No hay suficiente stock para esta venta."
  | _, _ => Except.ok st

/-- The sale form submit handler: stock step, then record either a client
transaction (amount through Math.abs) when creating with a client, or a
general sale otherwise. -/
def StoreState.submitSaleForm (st : StoreState) (genId : String)
    (f : SaleForm) : Except String StoreState :=
  match saleStockCheck st genId f with
  | Except.error e => Except.error e
  | Except.ok st1 =>
    match f.isEditing, f.clientId with
    | false, some cid =>
      Except.ok (st1.saveTransaction genId
        { id := "", clientId := cid, date := f.date, amount := |f.amount|,
          description := f.description }).1
    | _, _ =>
      Except.ok (st1.saveSale genId
        { id := f.idStr, date := f.date, amount := f.amount,
          description := f.description }).1

/-- Data collected by the expense form at submit time. -/
structure ExpenseForm where
  isEditing : Bool
  idStr : String
  creditorId : Option String
  amount : Int
  category : String
  description : String
  date : String

/-- The expense form submit handler: save the expense, then, on creation
with a creditor selected, also save a companion payment
CreditorTransaction with the negated absolute amount. -/
def StoreState.submitExpenseForm (st : StoreState)
    (genExpenseId genPaymentId : String) (f : ExpenseForm) : StoreState :=
  let st1 := (st.saveExpense genExpenseId
    { id := f.idStr, date := f.date, amount := f.amount,
      category := f.category, description := f.description,
      creditorId := f.creditorId }).1
  match f.creditorId, f.isEditing with
  | some k, false =>
    (st1.saveCreditorTransaction genPaymentId
      { id := "", creditorId := k, date := f.date, amount := -|f.amount|,
        description := "Pago registrado desde gastos: "
          ++ f.description }).1
  | _, _ => st1

/-- Data collected by the creditor transaction (purchase or payment) form
at submit time. `creditorId` is the creditor the detail page is open on
(or the creditor of the edited transaction). -/
structure ReceiveForm where
  isEditing : Bool
  idStr : String
  creditorId : String
  productId : Option String
  quantity : Int
  amount : Int
  description : String
  date : String

/-- The creditor transaction form submit handler: on creation with a
product selected and a positive received quantity, increment that
stock of that product through a product save; then save the creditor
transaction itself. -/
def StoreState.submitCreditorTransactionForm (st : StoreState)
    (genId : String) (f : ReceiveForm) : StoreState :=
  let st1 :=
    match f.productId with
    | some pid =>
      if 0 < f.quantity ∧ f.isEditing = false then
        match st.getProduct pid with
        | some product =>
          (st.saveProduct genId
            { product with quantity := product.quantity + f.quantity }).1
        | none => st
      else st
    | none => st
  (st1.saveCreditorTransaction genId
    { id := f.idStr, creditorId := f.creditorId, date := f.date,
      amount := f.amount, description := f.description }).1

/-! ## Frame lemmas for the remaining save paths -/

/-- Saving a sale with an unset id appends it with the generated id. -/
theorem saveSale_create (st : StoreState) (g : String) (s : Sale)
    (hs : s.id = "") :
    (st.saveSale g s).1
      = { st with sales := st.sales ++ [{ s with id := g }] } := by
  simp [StoreState.saveSale, saveList, hs]

/-- Saving a creditor transaction with an unset id appends it with the
generated id. -/
theorem saveCreditorTransaction_create (st : StoreState) (g : String)
    (t : CreditorTransaction) (ht : t.id = "") :
    (st.saveCreditorTransaction g t).1
      = { st with creditorTransactions :=
            st.creditorTransactions ++ [{ t with id := g }] } := by
  simp [StoreState.saveCreditorTransaction, saveList, ht]

/-- Saving a product whose set id is found replaces it in place. -/
theorem saveProduct_update (st : StoreState) (g : String) (item : Product)
    (n : Nat) (hne : item.id ≠ "")
    (hn : findIndex (fun x => x.id == item.id) st.products = some n) :
    (st.saveProduct g item).1
      = { st with products := st.products.set n item } := by
  simp [StoreState.saveProduct, saveList, hne, hn]

/-! ## Claim C3: selling from inventory -/

/-- Claim C3: on a creating sale submit, (a) selling q units of a product
with stock s and price p where q is at most s decrements the stock to
s - q and creates exactly one record with amount p times q: a client
transaction when a client is designated, a general sale otherwise; (b)
where q exceeds s the submit fails with the insufficient-stock error and,
the handler returning before any write, no record is created and the
stock is unchanged; (c) a manual sale (no product designated) performs no
stock check at all: it succeeds unconditionally, leaves the products
untouched and creates exactly one record. The amount hypothesis in (a)
reflects the form wiring: with a product selected the amount field is
read-only and always holds price times quantity. -/
theorem saleForm_stock_spec (st : StoreState) (genId : String) (f : SaleForm)
    (hEdit : f.isEditing = false) (hIdStr : f.idStr = "") :
    (∀ pid p, f.productId = some pid → st.getProduct pid = some p →
      pid ≠ "" → f.amount = p.price * f.quantity → 0 ≤ p.price →
      0 < f.quantity → f.quantity ≤ p.quantity →
      ∃ st1, st.submitSaleForm genId f = Except.ok st1
        ∧ st1.getProduct pid
            = some { p with quantity := p.quantity - f.quantity }
        ∧ (∀ cid, f.clientId = some cid →
            st1.transactions = st.transactions
              ++ [{ id := genId, clientId := cid, date := f.date,
                    amount := p.price * f.quantity,
                    description := f.description }]
            ∧ st1.sales = st.sales)
        ∧ (f.clientId = none →
            st1.sales = st.sales
              ++ [{ id := genId, date := f.date,
                    amount := p.price * f.quantity,
                    description := f.description }]
            ∧ st1.transactions = st.transactions))
    ∧ (∀ pid p, f.productId = some pid → st.getProduct pid = some p →
        p.quantity < f.quantity →
        st.submitSaleForm genId f
          = Except.error "No hay suficiente stock para esta venta.")
    ∧ (f.productId = none →
        ∃ st1, st.submitSaleForm genId f = Except.ok st1
          ∧ st1.products = st.products
          ∧ (∀ cid, f.clientId = some cid →
              st1.transactions = st.transactions
                ++ [{ id := genId, clientId := cid, date := f.date,
                      amount := |f.amount|, description := f.description }]
              ∧ st1.sales = st.sales)
          ∧ (f.clientId = none →
              st1.sales = st.sales
                ++ [{ id := genId, date := f.date, amount := f.amount,
                      description := f.description }]
              ∧ st1.transactions = st.transactions)) := by
  refine ⟨?_, ?_, ?_⟩
  · -- (a) sufficient stock
    intro pid p hPid hfind hpid hamount hprice hqpos hqle
    have hpidEq : p.id = pid := by
      simpa using List.find?_some hfind
    obtain ⟨n, hn⟩ := find?_eq_some_findIndex _ _ _ hfind
    have habs : |f.amount| = p.price * f.quantity := by
      rw [hamount]
      exact abs_of_nonneg (mul_nonneg hprice hqpos.le)
    have hne2 : Product.id { p with quantity := p.quantity - f.quantity }
        ≠ "" := by
      simpa [hpidEq] using hpid
    have hnn : findIndex
        (fun x => x.id
          == Product.id { p with quantity := p.quantity - f.quantity })
        st.products = some n := by
      simpa [hpidEq] using hn
    have hstP := saveProduct_update st genId
      { p with quantity := p.quantity - f.quantity } n hne2 hnn
    have hstock : saleStockCheck st genId f
        = Except.ok (st.saveProduct genId
            { p with quantity := p.quantity - f.quantity }).1 := by
      simp [saleStockCheck, hEdit, hPid, hfind, hqle]
    have hgetP : ∀ stx : StoreState,
        stx.products = st.products.set n ({ p with quantity := p.quantity - f.quantity }) →
        stx.getProduct pid
          = some { p with quantity := p.quantity - f.quantity } := by
      intro stx hx
      rw [StoreState.getProduct, hx]
      exact find?_set_of_findIndex _ _ n _ hn (by simp [hpidEq])
    cases hcl : f.clientId with
    | some cid =>
      refine ⟨((st.saveProduct genId
          { p with quantity := p.quantity - f.quantity }).1.saveTransaction
            genId
            { id := "", clientId := cid, date := f.date, amount := |f.amount|,
              description := f.description }).1, ?_, ?_, ?_, ?_⟩
      · simp [StoreState.submitSaleForm, hstock, hEdit, hcl]
      · rw [saveTransaction_create _ _ _ rfl]
        exact hgetP _ (by rw [hstP])
      · intro cid2 hcid2
        cases hcid2
        rw [saveTransaction_create _ _ _ rfl]
        constructor
        · rw [hstP]
          simp [habs]
        · rw [hstP]
      · intro hnone
        cases hnone
    | none =>
      refine ⟨((st.saveProduct genId
          { p with quantity := p.quantity - f.quantity }).1.saveSale genId
            { id := f.idStr, date := f.date, amount := f.amount,
              description := f.description }).1, ?_, ?_, ?_, ?_⟩
      · simp [StoreState.submitSaleForm, hstock, hEdit, hcl]
      · rw [saveSale_create _ _ _ hIdStr]
        exact hgetP _ (by rw [hstP])
      · intro cid2 hcid2
        cases hcid2
      · intro _
        rw [saveSale_create _ _ _ hIdStr]
        constructor
        · rw [hstP]
          simp [hamount]
        · rw [hstP]
  · -- (b) insufficient stock
    intro pid p hPid hfind hlt
    have hstock : saleStockCheck st genId f
        = Except.error "No hay suficiente stock para esta venta." := by
      simp [saleStockCheck, hEdit, hPid, hfind, not_le.mpr hlt]
    simp [StoreState.submitSaleForm, hstock]
  · -- (c) manual sale, no stock check
    intro hPid
    have hstock : saleStockCheck st genId f = Except.ok st := by
      simp [saleStockCheck, hEdit, hPid]
    cases hcl : f.clientId with
    | some cid =>
      refine ⟨(st.saveTransaction genId
          { id := "", clientId := cid, date := f.date, amount := |f.amount|,
            description := f.description }).1, ?_, ?_, ?_, ?_⟩
      · simp [StoreState.submitSaleForm, hstock, hEdit, hcl]
      · rw [saveTransaction_create _ _ _ rfl]
      · intro cid2 hcid2
        cases hcid2
        rw [saveTransaction_create _ _ _ rfl]
        exact ⟨rfl, rfl⟩
      · intro hnone
        cases hnone
    | none =>
      refine ⟨(st.saveSale genId
          { id := f.idStr, date := f.date, amount := f.amount,
            description := f.description }).1, ?_, ?_, ?_, ?_⟩
      · simp [StoreState.submitSaleForm, hstock, hEdit, hcl]
      · rw [saveSale_create _ _ _ hIdStr]
      · intro cid2 hcid2
        cases hcid2
      · intro _
        rw [saveSale_create _ _ _ hIdStr]
        exact ⟨rfl, rfl⟩

/-- Example product for the witnesses: Tornillos, price 500, stock 10. -/
def wProduct : Product := ⟨"p1", "Tornillos", "caja", 500, 10⟩

/-- Example store with one product, for the witnesses. -/
def wStInv : StoreState := { StoreState.empty with products := [wProduct] }

/-- Creating sale form data: sell 3 Tornillos from inventory, no client. -/
def wSaleF : SaleForm :=
  ⟨false, "", none, some "p1", 3, 1500, "Tornillos", "2026-02-01"⟩

theorem saleForm_stock_spec_witness :
    ∃ st1, wStInv.submitSaleForm "g1" wSaleF = Except.ok st1
      ∧ st1.getProduct "p1"
          = some { wProduct with quantity := wProduct.quantity - wSaleF.quantity }
      ∧ (∀ cid, wSaleF.clientId = some cid →
          st1.transactions = wStInv.transactions
            ++ [{ id := "g1", clientId := cid, date := wSaleF.date,
                  amount := wProduct.price * wSaleF.quantity,
                  description := wSaleF.description }]
          ∧ st1.sales = wStInv.sales)
      ∧ (wSaleF.clientId = none →
          st1.sales = wStInv.sales
            ++ [{ id := "g1", date := wSaleF.date,
                  amount := wProduct.price * wSaleF.quantity,
                  description := wSaleF.description }]
          ∧ st1.transactions = wStInv.transactions) :=
  (saleForm_stock_spec wStInv "g1" wSaleF rfl rfl).1 "p1" wProduct rfl
    (by decide) (by decide) (by decide) (by decide) (by decide) (by decide)

/-! ## Claim C4: expense to creditor payment synchronization -/

/-- Claim C4: submitting a new expense with a creditor selected appends
exactly one companion CreditorTransaction for that creditor with amount
minus the absolute value of the expense amount; submitting in editing
mode leaves the creditor transactions untouched, so the synchronization
fires only at creation time. -/
theorem expenseForm_creditor_sync (st : StoreState) (g1 g2 : String)
    (f : ExpenseForm) :
    (∀ k, f.creditorId = some k → f.isEditing = false →
      (st.submitExpenseForm g1 g2 f).creditorTransactions
        = st.creditorTransactions
          ++ [{ id := g2, creditorId := k, date := f.date,
                amount := -|f.amount|,
                description := "Pago registrado desde gastos: "
                  ++ f.description }])
    ∧ (f.isEditing = true →
        (st.submitExpenseForm g1 g2 f).creditorTransactions
          = st.creditorTransactions) := by
  have hframe : ∀ (s : StoreState) (g : String) (e : Expense),
      ((s.saveExpense g e).1).creditorTransactions = s.creditorTransactions :=
    fun _ _ _ => rfl
  constructor
  · intro k hk hEd
    simp only [StoreState.submitExpenseForm, hk, hEd]
    rw [saveCreditorTransaction_create _ _ _ rfl]
    simp [hframe]
  · intro hEd
    cases hc : f.creditorId with
    | none => simp [StoreState.submitExpenseForm, hEd, hc, hframe]
    | some k => simp [StoreState.submitExpenseForm, hEd, hc, hframe]

/-- Creating expense form data for the C4 witness. -/
def wExpF1 : ExpenseForm :=
  ⟨false, "", some "k1", 100, "Servicios", "pago luz", "2026-03-01"⟩

/-- Editing expense form data for the C4 witness. -/
def wExpF2 : ExpenseForm :=
  ⟨true, "e1", some "k1", 100, "Servicios", "pago luz", "2026-03-01"⟩

theorem expenseForm_creditor_sync_witness :
    (StoreState.empty.submitExpenseForm "e9" "c9" wExpF1).creditorTransactions
        = StoreState.empty.creditorTransactions
          ++ [{ id := "c9", creditorId := "k1", date := wExpF1.date,
                amount := -|wExpF1.amount|,
                description := "Pago registrado desde gastos: "
                  ++ wExpF1.description }]
    ∧ (StoreState.empty.submitExpenseForm "e9" "c9" wExpF2).creditorTransactions
        = StoreState.empty.creditorTransactions :=
  ⟨(expenseForm_creditor_sync StoreState.empty "e9" "c9" wExpF1).1 "k1" rfl rfl,
   (expenseForm_creditor_sync StoreState.empty "e9" "c9" wExpF2).2 rfl⟩

/-! ## Claim C8: receiving inventory through a creditor transaction -/

/-- Claim C8: submitting a new creditor transaction that carries a product
id and a received quantity greater than 0 increments the stock of that product
by the received amount (no ceiling: any positive quantity is accepted)
while appending exactly one creditor transaction; submitting in editing
mode never touches the stock of any product. -/
theorem creditorTransactionForm_stock (st : StoreState) (g : String)
    (f : ReceiveForm) :
    (∀ pid p, f.isEditing = false → f.idStr = "" → f.productId = some pid →
      0 < f.quantity → st.getProduct pid = some p → pid ≠ "" →
      (st.submitCreditorTransactionForm g f).getProduct pid
          = some { p with quantity := p.quantity + f.quantity }
        ∧ (st.submitCreditorTransactionForm g f).creditorTransactions
            = st.creditorTransactions
              ++ [{ id := g, creditorId := f.creditorId, date := f.date,
                    amount := f.amount, description := f.description }])
    ∧ (f.isEditing = true →
        (st.submitCreditorTransactionForm g f).products = st.products) := by
  constructor
  · intro pid p hEd hIdStr hPid hq hfind hpid
    have hpidEq : p.id = pid := by
      simpa using List.find?_some hfind
    obtain ⟨n, hn⟩ := find?_eq_some_findIndex _ _ _ hfind
    have hne2 : Product.id { p with quantity := p.quantity + f.quantity }
        ≠ "" := by
      simpa [hpidEq] using hpid
    have hnn : findIndex
        (fun x => x.id
          == Product.id { p with quantity := p.quantity + f.quantity })
        st.products = some n := by
      simpa [hpidEq] using hn
    have hstP := saveProduct_update st g
      { p with quantity := p.quantity + f.quantity } n hne2 hnn
    have hsubmit : st.submitCreditorTransactionForm g f
        = ((st.saveProduct g
              { p with quantity := p.quantity + f.quantity }).1.saveCreditorTransaction
            g
            { id := f.idStr, creditorId := f.creditorId, date := f.date,
              amount := f.amount, description := f.description }).1 := by
      simp [StoreState.submitCreditorTransactionForm, hEd, hPid, hfind, hq]
    constructor
    · rw [hsubmit, saveCreditorTransaction_create _ _ _ hIdStr,
        StoreState.getProduct]
      show ((st.saveProduct g
        { p with quantity := p.quantity + f.quantity }).1).products.find?
          (fun x => x.id == pid) = _
      rw [hstP]
      exact find?_set_of_findIndex _ _ n _ hn (by simp [hpidEq])
    · rw [hsubmit, saveCreditorTransaction_create _ _ _ hIdStr]
      rfl
  · intro hEd
    cases hp : f.productId with
    | none =>
      simp [StoreState.submitCreditorTransactionForm, hp,
        StoreState.saveCreditorTransaction]
    | some pid =>
      simp [StoreState.submitCreditorTransactionForm, hEd, hp,
        StoreState.saveCreditorTransaction]

/-- Creating creditor transaction form data for the C8 witness: purchase
of 2500 from creditor k1 with 5 Tornillos received into inventory. -/
def wRecF : ReceiveForm :=
  ⟨false, "", "k1", some "p1", 5, 2500, "compra tornillos", "2026-04-01"⟩

theorem creditorTransactionForm_stock_witness :
    (wStInv.submitCreditorTransactionForm "g7" wRecF).getProduct "p1"
        = some { wProduct with quantity := wProduct.quantity + wRecF.quantity }
    ∧ (wStInv.submitCreditorTransactionForm "g7" wRecF).creditorTransactions
        = wStInv.creditorTransactions
          ++ [{ id := "g7", creditorId := wRecF.creditorId, date := wRecF.date,
                amount := wRecF.amount, description := wRecF.description }] :=
  (creditorTransactionForm_stock wStInv "g7" wRecF).1 "p1" wProduct rfl rfl rfl
    (by decide) (by decide) (by decide)

end AppOscar
